import Mathlib

/-!
Verification of `scripts/plot_spectra.py` from the CalanDigital repository.

The script parses command-line flags, connects to a ROACH device, derives
plotting parameters, builds a matplotlib figure, writes three registers and
then animates spectra read from bram blocks.  We embed the script shallowly:

* the argparse parser (lines 7-34) becomes `parseArgs` over a `CmdLine`
  record of optionally-provided flags, filling the declared defaults and
  enforcing the declared `choices` enums;
* the parameter derivation in `main` (lines 42-46) becomes the pure
  functions `nbrams`, `specbrams_list`, `nchannels`, `freqs` and `dBFS`.
  The script runs under Python 2, where `/` on two ints is floor division,
  so `len(args.bramnames) / args.nspecs` is modelled with `Nat` division;
  a Python slice `l[a:b]` (with `0 ≤ a ≤ b`) is `(l.drop a).take (b - a)`;
  `np.linspace(0, bw, n, endpoint=False)` produces `0 + bw * i / n` for
  `i = 0, …, n-1`, modelled over `ℚ`;
* device interactions (`initialize_roach`, `write_int`,
  `read_interleave_data`) are recorded as an `Event` trace; the values the
  external calls return (`read_interleave_data`, `scale_and_dBFS_specdata`,
  `np.log10`) are oracle function parameters, since `calandigital` and
  `numpy` are external libraries;
* `create_figure` (lines 69-90) becomes a pure function producing the list
  of axes/lines; `plt.subplots(r, c)` followed by `axes.flatten()`
  enumerates the `r × c` grid in row-major (C) order;
* the `animate` closure (lines 56-64) becomes `tickState`, a pure step
  function on a `RunState`, and `FuncAnimation` iterating it becomes
  `runFrames`.
-/

namespace PlotSpectra

/-- Parsed command-line arguments, mirroring the `argparse` destinations
declared on lines 7-34 of `plot_spectra.py`.  Integer-typed flags whose
documented meaning is a nonnegative count or bit width (`rver`, `nspecs`,
`awidth`, `dwidth`, `nbits`) are modelled with `ℕ`; `acclen` is written to
the device as a machine integer and kept as `ℤ`; `bandwidth` is a float
flag, modelled over `ℚ`. -/
structure Args where
  ip : String
  boffile : Option String
  rver : ℕ
  bramnames : Option (List String)
  nspecs : ℕ
  dtype : String
  awidth : ℕ
  dwidth : ℕ
  bandwidth : ℚ
  nbits : ℕ
  count_reg : String
  acc_reg : String
  acclen : ℤ
  deriving Repr, DecidableEq

/-- A command line, as seen by `argparse`: for each flag, either the user
supplied a value or not.  `bramnames` (`nargs="*"`) may be supplied as a
(possibly empty) list of strings. -/
structure CmdLine where
  ip : Option String
  boffile : Option String
  rver : Option ℕ
  bramnames : Option (List String)
  nspecs : Option ℕ
  dtype : Option String
  awidth : Option ℕ
  dwidth : Option ℕ
  bandwidth : Option ℚ
  nbits : Option ℕ
  count_reg : Option String
  acc_reg : Option String
  acclen : Option ℤ
  deriving Repr, DecidableEq

/-- Model of `parser.parse_args()`: the required `-i (--ip)` flag must be present, the
`choices` sets of `-r (--rver)` (`{1,2}`) and `-ns (--nspecs)` (`{1,2,4,16}`)
are enforced, and every optional flag falls back to its declared default
(`rver=2`, `nspecs=2`, `dtype=">i8"`, `awidth=9`, `dwidth=64`,
`bandwidth=1080`, `nbits=8`, `count_reg="cnt_rst"`, `acc_reg="acc_len"`,
`acclen=2^16`).  `-bn (--bramnames)` has no default, so an omitted flag
leaves `bramnames = none` (Python `None`).  A violation makes `argparse`
exit with a usage message, modelled as `Except.error`. -/
def parseArgs (c : CmdLine) : Except String Args :=
  match c.ip with
  | none => .error "usage: argument -i (--ip) is required"
  | some ip =>
    let rver := c.rver.getD 2
    if rver = 1 ∨ rver = 2 then
      let nspecs := c.nspecs.getD 2
      if nspecs = 1 ∨ nspecs = 2 ∨ nspecs = 4 ∨ nspecs = 16 then
        .ok { ip := ip, boffile := c.boffile, rver := rver,
              bramnames := c.bramnames, nspecs := nspecs,
              dtype := c.dtype.getD ">i8", awidth := c.awidth.getD 9,
              dwidth := c.dwidth.getD 64,
              bandwidth := c.bandwidth.getD 1080,
              nbits := c.nbits.getD 8,
              count_reg := c.count_reg.getD "cnt_rst",
              acc_reg := c.acc_reg.getD "acc_len",
              acclen := c.acclen.getD (2 ^ 16) }
      else .error "usage: argument -ns (--nspecs): invalid choice"
    else .error "usage: argument -r (--rver): invalid choice"

/-- Line 42: `nbrams = len(args.bramnames) / args.nspecs` — Python 2 floor
division of two ints. -/
def nbrams (bramnames : List String) (nspecs : ℕ) : ℕ :=
  bramnames.length / nspecs

/-- Line 43:
`specbrams_list = [args.bramnames[i*nbrams:(i+1)*nbrams] for i in range(args.nspecs)]`. -/
def specbrams_list (bramnames : List String) (nspecs : ℕ) : List (List String) :=
  (List.range nspecs).map fun i =>
    ((bramnames.drop (i * nbrams bramnames nspecs)).take (nbrams bramnames nspecs))

/-- Line 44: `nchannels = 2**args.awidth * nbrams`. -/
def nchannels (bramnames : List String) (nspecs awidth : ℕ) : ℕ :=
  2 ^ awidth * nbrams bramnames nspecs

/-- Model of `np.linspace(start, stop, num, endpoint=False)`: `num` samples
`start + (stop - start) * i / num`, the endpoint excluded. -/
def linspace (start stop : ℚ) (num : ℕ) : List ℚ :=
  (List.range num).map fun i : ℕ => start + (stop - start) * (i : ℚ) / (num : ℚ)

/-- Line 45: `freqs = np.linspace(0, args.bandwidth, nchannels, endpoint=False)`. -/
def freqs (bandwidth : ℚ) (nch : ℕ) : List ℚ :=
  linspace 0 bandwidth nch

/-- Line 46: `dBFS = 6.02*args.nbits + 1.76 + 10*np.log10(nchannels)`.
`np.log10` is an external numpy call, passed in as the oracle `log10`; the
carrier `α` is the numeric type of the floating-point values. -/
def dBFS_of (α : Type) [Field α] (log10 : ℕ → α) (nbits nch : ℕ) : α :=
  6.02 * (nbits : α) + 1.76 + 10 * log10 nch

/-- Line 46 with `np.log10` interpreted as the real base-10 logarithm. -/
noncomputable def dBFS (nbits nch : ℕ) : ℝ :=
  dBFS_of ℝ (fun n => Real.logb 10 n) nbits nch

/-- Line 73: `axmap = {1 : (1,1), 2 : (1,2), 4 : (2,2), 16 : (4,4)}`; a
lookup of any other key raises `KeyError`, modelled by `none`. -/
def axmap (nspecs : ℕ) : Option (ℕ × ℕ) :=
  match nspecs with
  | 1 => some (1, 1)
  | 2 => some (1, 2)
  | 4 => some (2, 2)
  | 16 => some (4, 4)
  | _ => none

/-- One subplot as configured by the loop on lines 79-88: grid position,
axis limits, labels, title, grid flag, and the single animated line
attached to it (`line, = ax.plot([], [], animated=True)`), holding its
current `(x, y)` data. -/
structure Axis (α : Type) where
  row : ℕ
  col : ℕ
  xlim : ℚ × ℚ
  ylim : α × α
  xlabel : String
  ylabel : String
  title : String
  grid : Bool
  line : List ℚ × List α
  deriving Repr, DecidableEq

/-- Lines 69-90, `create_figure(nspecs, bandwidth, dBFS)`:
`plt.subplots(*axmap[nspecs], squeeze=False)` makes an `r × c` grid of
axes and `axes.flatten()` enumerates it in row-major (C) order; each axis
gets `xlim = (0, bandwidth)`, `ylim = (-dBFS-2, 0)`, the two labels, the
title `"In " + str(i)`, grid lines, and one empty line.  Returns the
lines in flattening order (`none` models the `KeyError` when `nspecs` is
not an `axmap` key). -/
def create_figure (α : Type) [Neg α] [Sub α] [OfNat α 2] [OfNat α 0]
    (nspecs : ℕ) (bandwidth : ℚ) (d : α) : Option (List (Axis α)) :=
  match axmap nspecs with
  | none => none
  | some rc =>
    some ((((List.range rc.1).flatMap fun i =>
        (List.range rc.2).map fun j => (i, j)).enum).map
      fun p =>
        { row := p.2.1, col := p.2.2, xlim := (0, bandwidth),
          ylim := (-d - 2, 0), xlabel := "Frequency [MHz]",
          ylabel := "Power [dBFS]", title := "In " ++ toString p.1,
          grid := true, line := ([], []) })

/-- One observable device interaction performed by the script: the
`cd.initialize_roach` call (line 39), a `roach.write_int` (lines 51-53),
or a `cd.read_interleave_data` (lines 59-60). -/
inductive Event where
  | initRoach (ip : String) (boffile : Option String) (rver : ℕ)
  | writeInt (reg : String) (val : ℤ)
  | readInterleave (brams : List String) (awidth dwidth : ℕ) (dtype : String)
  deriving Repr, DecidableEq

/-- Whether an event is a register write. -/
def Event.isWrite : Event → Bool
  | .writeInt _ _ => true
  | _ => false

/-- The state closed over by the `animate` callback (lines 56-64): the
parsed arguments, the precomputed grouping `specbrams_list`, `nchannels`,
`freqs`, and the current data of each line of the figure. -/
structure RunState (α : Type) where
  args : Args
  specbrams : List (List String)
  nchannels : ℕ
  freqs : List ℚ
  lineData : List (List ℚ × List α)
  deriving Repr, DecidableEq

/-- One invocation of `animate` (lines 56-64): for each `(line, specbrams)`
pair of `zip(lines, specbrams_list)`, call
`cd.read_interleave_data(roach, specbrams, awidth, dwidth, dtype)` (an
`Event.readInterleave` whose returned samples come from the oracle
`readFn`), scale the result with
`cd.scale_and_dBFS_specdata(specdata, acclen, nbits, nchannels)` (oracle
`scaleFn`), and `line.set_data(freqs, specdata)`; lines beyond the zipped
prefix keep their data, and the whole `lines` list is returned. -/
def tickState {α : Type} (readFn : List String → ℕ → ℕ → String → List α)
    (scaleFn : List α → ℤ → ℕ → ℕ → List α) (s : RunState α) :
    List Event × RunState α :=
  let pairs := s.lineData.zip s.specbrams
  let events := pairs.map fun p =>
    Event.readInterleave p.2 s.args.awidth s.args.dwidth s.args.dtype
  let newData := pairs.map fun p =>
    (s.freqs,
     scaleFn (readFn p.2 s.args.awidth s.args.dwidth s.args.dtype)
       s.args.acclen s.args.nbits s.nchannels)
  (events, { s with lineData := newData ++ s.lineData.drop pairs.length })

/-- Model of `FuncAnimation(fig, animate, blit=True)` driving `k` frames starting at
frame index `i`; the read oracle may answer differently on each frame. -/
def runFrames {α : Type} (readFn : ℕ → List String → ℕ → ℕ → String → List α)
    (scaleFn : List α → ℤ → ℕ → ℕ → List α) :
    RunState α → ℕ → ℕ → List Event × RunState α
  | s, _, 0 => ([], s)
  | s, i, Nat.succ k =>
    let t := tickState (readFn i) scaleFn s
    let r := runFrames readFn scaleFn t.2 (i + 1) k
    (t.1 ++ r.1, r.2)

/-- Model of `main` (lines 36-54) after argument parsing, up to the construction of
`FuncAnimation`: initialize the roach (line 39), derive the parameters
(lines 42-46; `len(args.bramnames)` raises `TypeError` when `-bn` was
omitted and `args.bramnames` is `None`), build the figure (line 48), and
set and reset the registers (lines 51-53).  Returns the device-event
trace together with the state handed to `animate`, or the uncaught Python
exception. -/
def mainSetup (α : Type) [Field α] (log10 : ℕ → α) (a : Args) :
    List Event × Except String (RunState α) :=
  let ev0 := [Event.initRoach a.ip a.boffile a.rver]
  match a.bramnames with
  | none => (ev0, .error "TypeError: object of type NoneType has no len")
  | some names =>
    let sbl := specbrams_list names a.nspecs
    let nch := nchannels names a.nspecs a.awidth
    let fr := freqs a.bandwidth nch
    let d := dBFS_of α log10 a.nbits nch
    match create_figure α a.nspecs a.bandwidth d with
    | none => (ev0, .error "KeyError: nspecs not a key of axmap")
    | some axes =>
      (ev0 ++ [Event.writeInt a.acc_reg a.acclen, Event.writeInt a.count_reg 1,
               Event.writeInt a.count_reg 0],
       .ok { args := a, specbrams := sbl, nchannels := nch, freqs := fr,
             lineData := axes.map Axis.line })

/-- A whole run observed for `k` animation frames: the setup trace of
`main` followed, when setup succeeded, by the events of `k` calls of
`animate`. -/
def runTrace (α : Type) [Field α] (log10 : ℕ → α)
    (readFn : ℕ → List String → ℕ → ℕ → String → List α)
    (scaleFn : List α → ℤ → ℕ → ℕ → List α) (a : Args) (k : ℕ) : List Event :=
  match mainSetup α log10 a with
  | (ev, .error _) => ev
  | (ev, .ok s) => ev ++ (runFrames readFn scaleFn s 0 k).1

/-! ### Helper lemmas about the slicing on line 43 -/

/-- Concatenating the `n` consecutive slices of width `k` recovers the
first `n * k` elements of the list. -/
theorem flatten_slices {α : Type} (l : List α) (k : ℕ) :
    ∀ n : ℕ, (((List.range n).map fun i => (l.drop (i * k)).take k)).flatten
      = l.take (n * k) := by
  intro n
  induction n with
  | zero => simp
  | succ n ih =>
    rw [List.range_succ, List.map_append, List.flatten_append]
    simp only [List.map_cons, List.map_nil, List.flatten_cons, List.flatten_nil,
      List.append_nil, ih]
    rw [Nat.succ_mul, List.take_add]

/-- A width-`k` slice that fits inside the list has length exactly `k`. -/
theorem slice_length {α : Type} (l : List α) (i k : ℕ)
    (h : (i + 1) * k ≤ l.length) :
    ((l.drop (i * k)).take k).length = k := by
  rw [Nat.succ_mul] at h
  simp only [List.length_take, List.length_drop]
  omega

/-- Element `j` of the slice starting at `a` is element `a + j` of the
list. -/
theorem slice_getElem? {α : Type} (l : List α) (a k j : ℕ) (hj : j < k) :
    ((l.drop a).take k)[j]? = l[a + j]? := by
  rw [List.getElem?_take, if_pos hj, List.getElem?_drop]

/-- Element `i` of `specbrams_list` (for `i < nspecs`) is the `i`-th
width-`nbrams` slice of the block-name list. -/
theorem specbrams_list_getElem? (names : List String) (n i : ℕ) (hi : i < n) :
    (specbrams_list names n)[i]? =
      some ((names.drop (i * nbrams names n)).take (nbrams names n)) := by
  unfold specbrams_list
  rw [List.getElem?_map, List.getElem?_range hi]
  rfl

/-- The grouping always consists of `nspecs` slices. -/
theorem specbrams_list_length (names : List String) (n : ℕ) :
    (specbrams_list names n).length = n := by
  simp [specbrams_list]

/-- The concatenation of the grouping is the first
`nspecs * nbrams` block names. -/
theorem specbrams_list_flatten (names : List String) (n : ℕ) :
    (specbrams_list names n).flatten = names.take (n * nbrams names n) := by
  unfold specbrams_list
  exact flatten_slices names (nbrams names n) n

/-! ### The claims about the parameter deriver -/

/-- C1: for every spectra count `n ∈ {1,2,4,16}` and block-name list whose
length `m` is divisible by `n`, `nbrams` is exactly `m / n`, and
`specbrams_list` partitions the list into `n` contiguous slices of equal
size `m / n` in input order: slice `i` holds the names with indices
`i * (m/n)` to `(i+1) * (m/n) - 1`, and concatenating the slices gives
the whole list back. -/
theorem spectra_grouping_exact (names : List String) (n : ℕ)
    (hn : n = 1 ∨ n = 2 ∨ n = 4 ∨ n = 16) (hd : n ∣ names.length) :
    nbrams names n * n = names.length ∧
    (specbrams_list names n).length = n ∧
    (∀ i < n, ∃ s, (specbrams_list names n)[i]? = some s ∧
      s.length = names.length / n ∧
      ∀ j < names.length / n, s[j]? = names[i * (names.length / n) + j]?) ∧
    (specbrams_list names n).flatten = names := by
  have hk : n * nbrams names n = names.length := by
    unfold nbrams
    exact Nat.mul_div_cancel' hd
  refine ⟨?_, specbrams_list_length names n, ?_, ?_⟩
  · unfold nbrams
    exact Nat.div_mul_cancel hd
  · intro i hi
    refine ⟨(names.drop (i * nbrams names n)).take (nbrams names n),
      specbrams_list_getElem? names n i hi, ?_, ?_⟩
    · exact slice_length names i (nbrams names n) (by nlinarith)
    · intro j hj
      exact slice_getElem? names (i * (names.length / n)) (names.length / n) j hj
  · rw [specbrams_list_flatten, hk, List.take_length]

/-- C2: for every spectra count
`n ∈ {1,2,4,16}` and block-name list whose length `m` is NOT divisible by
`n`, no error is raised (`mainSetup` still succeeds), every slice of the
grouping has the same size `m / n` (floor division), and the
concatenation of the slices is only the first `n * (m / n)` names: the
trailing `m % n ≠ 0` names are dropped. -/
theorem spectra_grouping_truncates (names : List String) (n : ℕ)
    (hn : n = 1 ∨ n = 2 ∨ n = 4 ∨ n = 16) (hnd : ¬ n ∣ names.length) :
    (∀ i < n, ∃ s, (specbrams_list names n)[i]? = some s ∧
      s.length = names.length / n) ∧
    (specbrams_list names n).flatten = names.take (n * (names.length / n)) ∧
    (specbrams_list names n).flatten.length = names.length - names.length % n ∧
    names.length % n ≠ 0 ∧
    (∀ (log10 : ℕ → ℚ) (a : Args), a.bramnames = some names → a.nspecs = n →
      ((mainSetup ℚ log10 a).2).isOk = true) := by
  have hmod : n * (names.length / n) + names.length % n = names.length :=
    Nat.div_add_mod names.length n
  have hle : n * (names.length / n) ≤ names.length := by omega
  refine ⟨?_, specbrams_list_flatten names n, ?_, ?_, ?_⟩
  · intro i hi
    refine ⟨(names.drop (i * nbrams names n)).take (nbrams names n),
      specbrams_list_getElem? names n i hi, ?_⟩
    refine slice_length names i (nbrams names n) ?_
    unfold nbrams
    nlinarith
  · rw [specbrams_list_flatten, List.length_take]
    unfold nbrams
    omega
  · intro h0
    exact hnd (Nat.dvd_of_mod_eq_zero h0)
  · intro log10 a hb hns
    have hax : ∃ rc, axmap a.nspecs = some rc := by
      rcases hn with h | h | h | h <;> exact ⟨_, by rw [hns, h]; rfl⟩
    obtain ⟨rc, hrc⟩ := hax
    simp [mainSetup, hb, create_figure, hrc, Except.isOk, Except.toBool]

/-- C4: the derived channel count is `2 ^ awidth` times blocks-per-spectrum,
which is the block-name count floor-divided by the spectra count. -/
theorem nchannels_formula (names : List String) (n aw : ℕ) :
    nchannels names n aw = 2 ^ aw * (names.length / n) := rfl

/-- Witness for C1 at four block names split into two spectra. -/
theorem spectra_grouping_exact_witness :
    ((2 : ℕ) = 1 ∨ (2 : ℕ) = 2 ∨ (2 : ℕ) = 4 ∨ (2 : ℕ) = 16) ∧
    (2 ∣ (["a0", "a1", "b0", "b1"] : List String).length) ∧
    (specbrams_list ["a0", "a1", "b0", "b1"] 2).flatten
      = ["a0", "a1", "b0", "b1"] :=
  ⟨by decide, by decide,
    (spectra_grouping_exact ["a0", "a1", "b0", "b1"] 2
      (by decide) (by decide)).2.2.2⟩

/-- Witness for C2 at five block names split into two spectra: the fifth
name is silently dropped. -/
theorem spectra_grouping_truncates_witness :
    ((2 : ℕ) = 1 ∨ (2 : ℕ) = 2 ∨ (2 : ℕ) = 4 ∨ (2 : ℕ) = 16) ∧
    ¬ (2 ∣ (["a0", "a1", "b0", "b1", "c0"] : List String).length) ∧
    (specbrams_list ["a0", "a1", "b0", "b1", "c0"] 2).flatten
      = (["a0", "a1", "b0", "b1", "c0"] : List String).take
          (2 * ((["a0", "a1", "b0", "b1", "c0"] : List String).length / 2)) :=
  ⟨by decide, by decide,
    (spectra_grouping_truncates ["a0", "a1", "b0", "b1", "c0"] 2
      (by decide) (by decide)).2.1⟩

/-! ### The claims about the frequency axis -/

/-- C3 as stated is false.  Two accepted configurations violate it: with
`-bn b0 -ns 1 -aw 0 -bw 0` (argparse puts no range check on the float
`bandwidth`) the axis is `[0]` and its last value `0` is not `< 0`; with
`-bn` given an empty list (and the defaults `-ns 2 -aw 9`) the channel
count is `0`, the axis is empty, and it has no first value `0`. -/
theorem freq_axis_cex :
    (¬ ∀ x, (freqs 0 (nchannels ["b0"] 1 0)).getLast? = some x → x < (0 : ℚ)) ∧
    ¬ ((freqs 1080 (nchannels [] 2 9)).head? = some 0) := by
  have h1 : nchannels ["b0"] 1 0 = 1 := rfl
  have h2 : nchannels [] 2 9 = 0 := rfl
  constructor
  · intro h
    have hlast : (freqs 0 (nchannels ["b0"] 1 0)).getLast? = some 0 := by
      rw [h1]
      show (linspace 0 0 1).getLast? = some 0
      norm_num [linspace, List.range_succ]
    exact absurd (h 0 hlast) (by norm_num)
  · rw [h2]
    show ¬ (linspace 0 1080 0).head? = some 0
    simp [linspace]

/-- Element `i` of `np.linspace(0, bw, m, endpoint=False)` is
`bw * i / m`. -/
theorem linspace_getElem? (bw : ℚ) (m i : ℕ) (hi : i < m) :
    (linspace 0 bw m)[i]? = some (bw * i / m) := by
  unfold linspace
  rw [List.getElem?_map, List.getElem?_range hi, Option.map_some']
  congr 1
  ring

/-- C3 amended: for every configuration with positive bandwidth and at
least one derived channel, the frequency axis has length `nchannels`,
starts at `0`, has constant consecutive spacing `bandwidth / nchannels`,
and its last value is strictly below the bandwidth. -/
theorem freq_axis_spec (bw : ℚ) (names : List String) (n aw : ℕ)
    (hbw : 0 < bw) (hch : 0 < nchannels names n aw) :
    (freqs bw (nchannels names n aw)).length = nchannels names n aw ∧
    (freqs bw (nchannels names n aw)).head? = some 0 ∧
    (∀ i, i + 1 < nchannels names n aw →
      ∃ x y, (freqs bw (nchannels names n aw))[i]? = some x ∧
        (freqs bw (nchannels names n aw))[i + 1]? = some y ∧
        y - x = bw / nchannels names n aw) ∧
    (∀ x, (freqs bw (nchannels names n aw)).getLast? = some x → x < bw) := by
  set m := nchannels names n aw with hm
  have hmq : (0 : ℚ) < (m : ℚ) := by exact_mod_cast hch
  have hlen : (freqs bw m).length = m := by
    simp [freqs, linspace]
  refine ⟨hlen, ?_, ?_, ?_⟩
  · rw [List.head?_eq_getElem?]
    show (linspace 0 bw m)[0]? = some 0
    rw [linspace_getElem? bw m 0 hch]
    norm_num
  · intro i hi
    refine ⟨bw * i / m, bw * ((i : ℚ) + 1) / m,
      linspace_getElem? bw m i (by omega), ?_, ?_⟩
    · have : ((i : ℚ) + 1) = ((i + 1 : ℕ) : ℚ) := by push_cast; ring
      rw [this]
      exact linspace_getElem? bw m (i + 1) hi
    · rw [div_sub_div_same]
      congr 1
      ring
  · intro x hx
    rw [List.getLast?_eq_getElem?, hlen] at hx
    have hx' : (linspace 0 bw m)[m - 1]? = some x := hx
    rw [linspace_getElem? bw m (m - 1) (by omega)] at hx'
    obtain rfl : bw * ((m - 1 : ℕ) : ℚ) / m = x := Option.some.inj hx'
    have hcast : ((m - 1 : ℕ) : ℚ) = (m : ℚ) - 1 := by
      have h1 : (1 : ℕ) ≤ m := hch
      push_cast [Nat.cast_sub h1]
      ring
    rw [hcast, div_lt_iff₀ hmq]
    nlinarith

/-- Witness for the amended C3 at bandwidth `10`, two blocks, one
spectrum, address width `0` (so two channels). -/
theorem freq_axis_spec_witness :
    (0 : ℚ) < 10 ∧ 0 < nchannels ["b0", "b1"] 1 0 ∧
    (∀ x, (freqs 10 (nchannels ["b0", "b1"] 1 0)).getLast? = some x →
      x < 10) :=
  ⟨by norm_num, by decide,
    (freq_axis_spec 10 ["b0", "b1"] 1 0 (by norm_num) (by decide)).2.2.2⟩

/-- C7: the full-scale reference equals
`6.02·nbits + 1.76 + 10·log10(nchannels)`, and at `nbits = 8`,
`nchannels = 512` it is `6.02·8 + 1.76 + 10·log10 512`. -/
theorem dBFS_formula :
    (∀ nbits nch : ℕ,
      dBFS nbits nch = 6.02 * (nbits : ℝ) + 1.76 + 10 * Real.logb 10 nch) ∧
    dBFS 8 512 = 6.02 * 8 + 1.76 + 10 * Real.logb 10 512 := by
  constructor
  · intro nbits nch
    rfl
  · show (6.02 : ℝ) * ((8 : ℕ) : ℝ) + 1.76 + 10 * Real.logb 10 ((512 : ℕ) : ℝ)
      = 6.02 * 8 + 1.76 + 10 * Real.logb 10 512
    norm_num

/-! ### The claims about the figure builder -/

/-- C6: for every spectra count in `{1,2,4,16}` the figure builder picks
the grid `1→1×1`, `2→1×2`, `4→2×2`, `16→4×4`, attaches one (initially
empty) line per subplot, titles subplot `i` `"In i"`, and returns the
lines in row-major traversal order (line `k` sits at row `k / c`, column
`k % c`), so the number of returned lines equals the spectra count. -/
theorem create_figure_spec (α : Type) [Neg α] [Sub α] [OfNat α 2] [OfNat α 0]
    (bw : ℚ) (d : α) (n : ℕ) (hn : n = 1 ∨ n = 2 ∨ n = 4 ∨ n = 16) :
    ∃ r c, axmap n = some (r, c) ∧ r * c = n ∧
      ((n = 1 ∧ (r, c) = (1, 1)) ∨ (n = 2 ∧ (r, c) = (1, 2)) ∨
       (n = 4 ∧ (r, c) = (2, 2)) ∨ (n = 16 ∧ (r, c) = (4, 4))) ∧
      ∃ lines, create_figure α n bw d = some lines ∧ lines.length = n ∧
        ∀ k < n, ∃ ax : Axis α, lines[k]? = some ax ∧
          ax.title = "In " ++ toString k ∧
          ax.line = ([], []) ∧ ax.row = k / c ∧ ax.col = k % c := by
  rcases hn with rfl | rfl | rfl | rfl
  · refine ⟨1, 1, rfl, rfl, by simp, _, rfl, rfl, ?_⟩
    intro k hk
    interval_cases k
    exact ⟨_, rfl, rfl, rfl, rfl, rfl⟩
  · refine ⟨1, 2, rfl, rfl, by simp, _, rfl, rfl, ?_⟩
    intro k hk
    interval_cases k <;> exact ⟨_, rfl, rfl, rfl, rfl, rfl⟩
  · refine ⟨2, 2, rfl, rfl, by simp, _, rfl, rfl, ?_⟩
    intro k hk
    interval_cases k <;> exact ⟨_, rfl, rfl, rfl, rfl, rfl⟩
  · refine ⟨4, 4, rfl, rfl, by simp, _, rfl, rfl, ?_⟩
    intro k hk
    interval_cases k <;> exact ⟨_, rfl, rfl, rfl, rfl, rfl⟩

/-- Witness for C6 at `nspecs = 4` over `ℚ`. -/
theorem create_figure_spec_witness :
    ((4 : ℕ) = 1 ∨ (4 : ℕ) = 2 ∨ (4 : ℕ) = 4 ∨ (4 : ℕ) = 16) ∧
    ∃ r c, axmap 4 = some (r, c) ∧ r * c = 4 ∧
      (((4 : ℕ) = 1 ∧ (r, c) = (1, 1)) ∨ ((4 : ℕ) = 2 ∧ (r, c) = (1, 2)) ∨
       ((4 : ℕ) = 4 ∧ (r, c) = (2, 2)) ∨ ((4 : ℕ) = 16 ∧ (r, c) = (4, 4))) ∧
      ∃ lines, create_figure ℚ 4 1080 0 = some lines ∧ lines.length = 4 ∧
        ∀ k < 4, ∃ ax : Axis ℚ, lines[k]? = some ax ∧
          ax.title = "In " ++ toString k ∧
          ax.line = ([], []) ∧ ax.row = k / c ∧ ax.col = k % c :=
  ⟨by decide, create_figure_spec ℚ 1080 0 4 (by decide)⟩

/-! ### The claims about the device traces and the frame loop -/

/-- The events of one `animate` call are the interleaved reads, one per
zipped `(line, specbrams)` pair, in grouping order. -/
theorem tickState_events {α : Type}
    (readFn : List String → ℕ → ℕ → String → List α)
    (scaleFn : List α → ℤ → ℕ → ℕ → List α) (s : RunState α) :
    (tickState readFn scaleFn s).1 = (s.lineData.zip s.specbrams).map fun p =>
      Event.readInterleave p.2 s.args.awidth s.args.dwidth s.args.dtype := rfl

/-- No call of `animate` ever writes a register. -/
theorem runFrames_no_writes {α : Type}
    (readFn : ℕ → List String → ℕ → ℕ → String → List α)
    (scaleFn : List α → ℤ → ℕ → ℕ → List α) :
    ∀ (k : ℕ) (s : RunState α) (i : ℕ),
      ∀ e ∈ (runFrames readFn scaleFn s i k).1, e.isWrite = false := by
  intro k
  induction k with
  | zero =>
    intro s i e he
    simp [runFrames] at he
  | succ k ih =>
    intro s i e he
    simp only [runFrames] at he
    rcases List.mem_append.mp he with h | h
    · rw [tickState_events] at h
      obtain ⟨p, -, rfl⟩ := List.mem_map.mp h
      rfl
    · exact ih _ _ e h

/-- With block names present and a spectra count in the `axmap` table,
`mainSetup` performs exactly the roach initialization followed by the
three register writes, and hands `animate` the derived state. -/
theorem mainSetup_ok (α : Type) [Field α] (log10 : ℕ → α) (a : Args)
    (names : List String) (rc : ℕ × ℕ)
    (hb : a.bramnames = some names) (hrc : axmap a.nspecs = some rc) :
    ∃ s : RunState α, mainSetup α log10 a =
      ([Event.initRoach a.ip a.boffile a.rver,
        Event.writeInt a.acc_reg a.acclen,
        Event.writeInt a.count_reg 1,
        Event.writeInt a.count_reg 0], .ok s) ∧
      s.args = a ∧
      s.specbrams = specbrams_list names a.nspecs ∧
      s.nchannels = nchannels names a.nspecs a.awidth ∧
      s.freqs = freqs a.bandwidth (nchannels names a.nspecs a.awidth) := by
  unfold mainSetup
  rw [hb]
  simp only [create_figure, hrc]
  exact ⟨_, rfl, rfl, rfl, rfl, rfl⟩

/-- C5: for every run with block names present and a valid spectra count,
the device trace over any number `k` of animation frames is exactly: the
roach initialization, then the three writes `(acc_reg, acclen)`,
`(count_reg, 1)`, `(count_reg, 0)` in this order, then only non-write
(read) events — so the three writes happen exactly once per run, after
device initialization and before every frame read. -/
theorem register_setup_writes (α : Type) [Field α] (log10 : ℕ → α)
    (readFn : ℕ → List String → ℕ → ℕ → String → List α)
    (scaleFn : List α → ℤ → ℕ → ℕ → List α)
    (a : Args) (names : List String) (k : ℕ)
    (hb : a.bramnames = some names)
    (hn : a.nspecs = 1 ∨ a.nspecs = 2 ∨ a.nspecs = 4 ∨ a.nspecs = 16) :
    ∃ readEvents : List Event,
      runTrace α log10 readFn scaleFn a k =
        Event.initRoach a.ip a.boffile a.rver ::
        Event.writeInt a.acc_reg a.acclen ::
        Event.writeInt a.count_reg 1 ::
        Event.writeInt a.count_reg 0 :: readEvents ∧
      ∀ e ∈ readEvents, e.isWrite = false := by
  obtain ⟨rc, hrc⟩ : ∃ rc, axmap a.nspecs = some rc := by
    rcases hn with h | h | h | h <;> exact ⟨_, by rw [h]; rfl⟩
  obtain ⟨s, hms, -, -, -, -⟩ := mainSetup_ok α log10 a names rc hb hrc
  refine ⟨(runFrames readFn scaleFn s 0 k).1, ?_, ?_⟩
  · unfold runTrace
    rw [hms]
    rfl
  · intro e he
    exact runFrames_no_writes readFn scaleFn k s 0 e he

/-- Arguments of a representative run: `-i 192.168.0.40` with four block
names, two spectra, and every other flag at its default. -/
def args0 : Args :=
  { ip := "192.168.0.40", boffile := none, rver := 2,
    bramnames := some ["dout0_0", "dout0_1", "dout1_0", "dout1_1"],
    nspecs := 2, dtype := ">i8", awidth := 9, dwidth := 64,
    bandwidth := 1080, nbits := 8, count_reg := "cnt_rst",
    acc_reg := "acc_len", acclen := 2 ^ 16 }

/-- Witness for C5: the representative run observed for three frames. -/
theorem register_setup_writes_witness :
    args0.bramnames = some ["dout0_0", "dout0_1", "dout1_0", "dout1_1"] ∧
    (args0.nspecs = 1 ∨ args0.nspecs = 2 ∨ args0.nspecs = 4 ∨
      args0.nspecs = 16) ∧
    ∃ readEvents : List Event,
      runTrace ℚ (fun _ => 0) (fun _ _ _ _ _ => []) (fun d _ _ _ => d)
          args0 3 =
        Event.initRoach args0.ip args0.boffile args0.rver ::
        Event.writeInt args0.acc_reg args0.acclen ::
        Event.writeInt args0.count_reg 1 ::
        Event.writeInt args0.count_reg 0 :: readEvents ∧
      ∀ e ∈ readEvents, e.isWrite = false :=
  ⟨rfl, by decide,
    register_setup_writes ℚ (fun _ => 0) (fun _ _ _ _ _ => [])
      (fun d _ _ _ => d) args0 ["dout0_0", "dout0_1", "dout1_0", "dout1_1"]
      3 rfl (by decide)⟩

/-- C8: one `animate` call on a state whose line list and grouping have
equal length (as every successful setup produces): the device events are
exactly one interleaved read per block group, in grouping order, each
with the block names of that group and the configured address width, data
width and data-type tag; line `i` is assigned the scaled read result of
group `i` paired with the static frequency axis (scaling by accumulation
length, bit depth and channel count); and the full line list is
returned, with exactly one read per group. -/
theorem animate_tick_spec (α : Type)
    (readFn : List String → ℕ → ℕ → String → List α)
    (scaleFn : List α → ℤ → ℕ → ℕ → List α) (s : RunState α)
    (hlen : s.lineData.length = s.specbrams.length) :
    (tickState readFn scaleFn s).1 =
      (s.specbrams.map fun g =>
        Event.readInterleave g s.args.awidth s.args.dwidth s.args.dtype) ∧
    (tickState readFn scaleFn s).1.length = s.specbrams.length ∧
    (tickState readFn scaleFn s).2.lineData =
      (s.specbrams.map fun g =>
        (s.freqs,
         scaleFn (readFn g s.args.awidth s.args.dwidth s.args.dtype)
           s.args.acclen s.args.nbits s.nchannels)) ∧
    (tickState readFn scaleFn s).2.lineData.length = s.lineData.length := by
  have key : ∀ {β : Type} (f : List String → β),
      (s.lineData.zip s.specbrams).map (fun p => f p.2) = s.specbrams.map f := by
    intro β f
    have h1 : (s.lineData.zip s.specbrams).map (fun p => f p.2)
        = ((s.lineData.zip s.specbrams).map Prod.snd).map f := by
      rw [List.map_map]
      rfl
    rw [h1, List.map_snd_zip _ _ (le_of_eq hlen.symm)]
  have hdrop : s.lineData.drop (s.lineData.zip s.specbrams).length = [] := by
    rw [List.length_zip, hlen, Nat.min_self, ← hlen, List.drop_length]
  have e1 : (tickState readFn scaleFn s).1 =
      s.specbrams.map fun g =>
        Event.readInterleave g s.args.awidth s.args.dwidth s.args.dtype := by
    rw [tickState_events]
    exact key fun g =>
      Event.readInterleave g s.args.awidth s.args.dwidth s.args.dtype
  have e3 : (tickState readFn scaleFn s).2.lineData =
      ((s.lineData.zip s.specbrams).map fun p =>
        (s.freqs,
         scaleFn (readFn p.2 s.args.awidth s.args.dwidth s.args.dtype)
           s.args.acclen s.args.nbits s.nchannels)) ++
      s.lineData.drop (s.lineData.zip s.specbrams).length := rfl
  refine ⟨e1, ?_, ?_, ?_⟩
  · rw [e1, List.length_map]
  · rw [e3, hdrop, List.append_nil]
    exact key fun g =>
      (s.freqs,
       scaleFn (readFn g s.args.awidth s.args.dwidth s.args.dtype)
         s.args.acclen s.args.nbits s.nchannels)
  · rw [e3, hdrop, List.append_nil, List.length_map, List.length_zip,
      hlen, Nat.min_self]

/-- The state `animate` closes over in the representative two-spectra,
four-block run: two groups of two names and the two (initially empty)
lines of the figure. -/
def runState0 : RunState ℚ :=
  { args := args0,
    specbrams := specbrams_list ["dout0_0", "dout0_1", "dout1_0", "dout1_1"] 2,
    nchannels := nchannels ["dout0_0", "dout0_1", "dout1_0", "dout1_1"] 2 9,
    freqs := freqs 1080 (nchannels ["dout0_0", "dout0_1", "dout1_0", "dout1_1"] 2 9),
    lineData := [([], []), ([], [])] }

/-- Witness for C8: in the two-spectra, four-block run, one tick performs
exactly two reads. -/
theorem animate_tick_spec_witness :
    runState0.lineData.length = runState0.specbrams.length ∧
    (tickState (fun _ _ _ _ => []) (fun d _ _ _ => d) runState0).1.length = 2 :=
  ⟨by decide,
    (animate_tick_spec ℚ (fun _ _ _ _ => []) (fun d _ _ _ => d) runState0
      (by decide)).2.1⟩

/-- C9: across any number of animation frames, only the line data of the
closed-over state changes: the parsed configuration, the block-name
grouping, the channel count and the frequency axis are read unchanged by
every tick. -/
theorem animate_mutates_only_lines (α : Type)
    (readFn : ℕ → List String → ℕ → ℕ → String → List α)
    (scaleFn : List α → ℤ → ℕ → ℕ → List α) (s : RunState α) (i k : ℕ) :
    (runFrames readFn scaleFn s i k).2.args = s.args ∧
    (runFrames readFn scaleFn s i k).2.specbrams = s.specbrams ∧
    (runFrames readFn scaleFn s i k).2.nchannels = s.nchannels ∧
    (runFrames readFn scaleFn s i k).2.freqs = s.freqs := by
  induction k generalizing s i with
  | zero => exact ⟨rfl, rfl, rfl, rfl⟩
  | succ k ih => exact ih ((tickState (readFn i) scaleFn s).2) (i + 1)

/-- A command line that supplies only the required `-i` flag and omits
`-bn`. -/
def omittedBramnamesCmdLine : CmdLine :=
  { ip := some "192.168.0.40", boffile := none, rver := none,
    bramnames := none, nspecs := none, dtype := none, awidth := none,
    dwidth := none, bandwidth := none, nbits := none, count_reg := none,
    acc_reg := none, acclen := none }

/-- C10: `-bn` is optional with no default: a command line omitting it
parses successfully (no usage exit), and the run then initializes the
roach and fails at the parameter-derivation step with a type error from
taking `len` of the absent block-name list — before any register write
or figure construction. -/
theorem omitted_bramnames_spec :
    ∃ a : Args, parseArgs omittedBramnamesCmdLine = .ok a ∧
      a.bramnames = none ∧
      mainSetup ℚ (fun _ => 0) a =
        ([Event.initRoach a.ip a.boffile a.rver],
         .error "TypeError: object of type NoneType has no len") :=
  ⟨_, rfl, rfl, rfl⟩

end PlotSpectra
